import Mathlib

/-!
# A verification development for the dgit working-copy engine

Shallow embedding of the checkout / index / object-store fragment of the
dgit repository (source files `checkoutindex.go`, `git/checkout.go`,
`git/objects.go`), together with theorems settling the specification
claims about that fragment.

Conventions used throughout:
* machine bytes are `Nat` (every byte of interest is < 256 and no
  arithmetic overflows occur in the modelled fragment);
* Go functions that can `return err` or `panic` produce a `GoResult`;
* the file system visible to the modelled code is an association list
  from slash-separated path strings to file data;
* external collaborators (zlib, `HaveObject`, `stat`, tree resolution,
  diff providers, ref storage) are supplied as explicit environment
  records, mirroring the call sites in the Go source.
-/

set_option autoImplicit false

namespace Dgit

/-- Outcome of a Go function call that may either succeed, return an
`error`, or terminate the process through `panic`. -/
inductive GoResult (α : Type) where
  | ok (a : α)
  | goError (msg : String)
  | panicked (msg : String)
  deriving Repr, DecidableEq

/-! ## Object store (`src/git/objects.go`) -/

/-- `GitBlobObject` (objects.go:20-23): the decoded size field and the
raw content bytes that followed the zero byte. -/
structure GitBlobObject where
  size : Nat
  content : List Nat
  deriving Repr, DecidableEq

/-- `GitBlobObject.GetContent` (objects.go:28-33).  The Go method panics
when the recorded size differs from the length of the content slice;
`none` models that panic, `some` the returned content. -/
def GitBlobObject.GetContent (b : GitBlobObject) : Option (List Nat) :=
  if b.content.length = b.size then some b.content else none

/-- Index of the first zero byte of a stream, as found by the
`for idx, val := range b` scan in objects.go:64-72. -/
def firstZeroIdx : List Nat → Option Nat
  | [] => none
  | b :: rest => if b = 0 then some 0 else (firstZeroIdx rest).map (· + 1)

/-- One byte of an ASCII decimal digit. -/
def isDigitNat (b : Nat) : Bool := 48 ≤ b && b ≤ 57

/-- Value of an all-digit byte string read as decimal. -/
def digitsToNat (l : List Nat) : Nat :=
  l.foldl (fun acc b => acc * 10 + (b - 48)) 0

/-- `strconv.Atoi` as used at objects.go:67: on a parse failure the Go
code only prints a message and keeps the zero value that `Atoi` returned
alongside its error, so the model yields `0` for a non-numeric field.
(The sizes written by the object store are plain unsigned decimals, so
base-10 digit strings are the only successful inputs in scope.) -/
def atoiOrZero (l : List Nat) : Nat :=
  if l ≠ [] && l.all isDigitNat then digitsToNat l else 0

/-- The ASCII bytes of the `"blob "` tag. -/
def blobTag : List Nat := [98, 108, 111, 98, 32]

/-- `Client.GetObject` (objects.go:37-78).

The collaborators are passed explicitly:
* `packed` / `haveErr` — the `HaveObject` result (objects.go:38-44);
  a true `packed` returns the packed-objects error, a `HaveObject`
  error is `panic`ked;
* `fileExists` — whether `os.Open` on the fanned-out object path
  succeeds; a failure is `panic("Couldn't open object file.")`;
* `zlib` — the fully decompressed byte stream, `none` when
  `zlib.NewReader` or `ReadAll` fails (both `return nil, err`).

Parsing (objects.go:61-77): a stream shorter than 5 bytes makes the Go
slice expression `b[0:5]` panic; a stream that does not start with
`"blob "` is `InvalidObject`; otherwise the first zero byte splits the
decimal size field from the content, with no check that the declared
size matches the content length. -/
def GetObject (packed haveErr fileExists : Bool) (zlib : Option (List Nat)) :
    GoResult GitBlobObject :=
  if packed then .goError "GetObject does not yet support packed objects"
  else if haveErr then .panicked "HaveObject failed"
  else if fileExists = false then .panicked "Couldn't open object file."
  else
    match zlib with
    | none => .goError "zlib: invalid stream"
    | some b =>
      if b.length < 5 then .panicked "runtime error: slice bounds out of range"
      else if b.take 5 = blobTag then
        match firstZeroIdx b with
        | none => .ok ⟨0, []⟩
        | some idx => .ok ⟨atoiOrZero ((b.drop 5).take (idx - 5)), b.drop (idx + 1)⟩
      else .goError "Invalid object"

/-! ## Ignore patterns and the untracked scanner's skip loop
(`src/checkoutindex.go`, second unit: `findUntrackedFilesFromDir`) -/

/-- `IgnorePattern` (spec §3): a compiled exclusion rule. -/
structure IgnorePattern where
  pattern : String
  source : String := ""
  lineNum : Nat := 1
  scope : String := ""
  deriving Repr, DecidableEq

/-- Glob matching of a pattern against a candidate string; `*` matches
any, possibly empty, run of characters, every other character matches
itself.  The recursion is fuelled to stay structural: every recursive
call shrinks the combined length of pattern and candidate, so
`(pattern and candidate length) + 1` fuel always suffices. -/
def globMatchAux : Nat → List Char → List Char → Bool
  | 0, _, _ => false
  | _ + 1, [], s => s.isEmpty
  | fuel + 1, c :: ps, s =>
    if c = '*' then
      globMatchAux fuel ps s ||
        (match s with
         | [] => false
         | _ :: srest => globMatchAux fuel ('*' :: ps) srest)
    else
      match s with
      | [] => false
      | sc :: srest => c = sc && globMatchAux fuel ps srest

/-- Glob matching with sufficient fuel. -/
def globMatch (p s : List Char) : Bool :=
  globMatchAux (p.length + s.length + 1) p s

/-- Leading negation mark of a pattern, consumed before glob matching. -/
def stripNeg : List Char → List Char
  | '!' :: rest => rest
  | l => l

/-- Whether a pattern is directory-only (trailing slash). -/
def dirOnly (l : List Char) : Bool := l.getLast? = some '/'

/-- Pattern text with a trailing directory slash removed. -/
def stripDirSlash (l : List Char) : List Char :=
  if dirOnly l then l.dropLast else l

/-- Modelled from the spec: `IgnorePattern.Matches` is called at
checkoutindex.go (second unit, line 212) but its body is not among the
given sources.  Per spec §4.3 a pattern's glob is matched against the
candidate path, and a directory-only pattern (trailing `/`) matches
only when the candidate is a directory; a leading `!` marks the
re-include verdict and is not part of the glob itself. -/
def IgnorePattern.matchesPath (p : IgnorePattern) (name : String) (isDir : Bool) : Bool :=
  let pat := stripNeg p.pattern.toList
  if dirOnly pat && !isDir then false
  else globMatch (stripDirSlash pat) name.toList

/-- The per-file ignore test of `findUntrackedFilesFromDir`
(checkoutindex.go, second unit, lines 205-215): the entry is skipped —
treated as ignored — as soon as one pattern of the accumulated list
matches; the patterns after the first match are never consulted. -/
def scanIgnores : List IgnorePattern → String → Bool → Bool
  | [], _, _ => false
  | p :: rest, name, isDir =>
    if p.matchesPath name isDir then true else scanIgnores rest name isDir

/-! ## The index entry model and the modelled file system -/

/-- One index entry, with the fields the modelled fragment reads or
writes (`PathName`, `Sha1`, `Mode`, `Mtime`, `Mtimenano`, the stage and
the skip-worktree flag, and the recorded size). -/
structure IndexEntry where
  pathName : String
  sha1 : Nat
  mode : Nat
  mtime : Nat
  mtimenano : Nat
  stage : Nat := 0
  skipWorktree : Bool := false
  fsize : Nat := 0
  deriving Repr, DecidableEq

/-- Data of one on-disk file: its content bytes and permission mode. -/
structure DiskFile where
  content : List Nat
  fmode : Nat
  deriving Repr, DecidableEq

/-- The working tree: an association list from paths to file data. -/
abbrev Disk := List (String × DiskFile)

/-- Look a path up on disk (first binding wins; paths are unique in
every state the model constructs). -/
def diskLookup : Disk → String → Option DiskFile
  | [], _ => none
  | (q, fd) :: rest, p => if q = p then some fd else diskLookup rest p

/-- Write a file: replace the binding for the path or append one. -/
def diskInsert : Disk → String → DiskFile → Disk
  | [], p, fd => [(p, fd)]
  | (q, g) :: rest, p, fd =>
    if q = p then (p, fd) :: rest else (q, g) :: diskInsert rest p fd

/-- Remove every binding for a path (`os.Remove` / `os.RemoveAll`). -/
def diskErase : Disk → String → Disk
  | [], _ => []
  | (q, g) :: rest, p =>
    if q = p then diskErase rest p else (q, g) :: diskErase rest p

/-- `os.Chmod`: update the mode of an existing file; the Go call sites
in scope ignore the returned error, so a missing path is a no-op. -/
def diskChmod : Disk → String → Nat → Disk
  | [], _, _ => []
  | (q, g) :: rest, p, m =>
    if q = p then (q, { g with fmode := m }) :: rest else (q, g) :: diskChmod rest p m

/-! ## Path-scoped checkout (`src/checkoutindex.go`, `CheckoutIndex`) -/

/-- `CheckoutIndexOptions` (checkoutindex.go:13-35), restricted to the
implemented fields.  `pfx` is the `Prefix` option (renamed only in the
model). -/
structure CheckoutIndexOptions where
  updateStat : Bool := false
  quiet : Bool := false
  force : Bool := false
  all : Bool := false
  noCreate : Bool := false
  pfx : String := ""
  deriving Repr, DecidableEq

/-- External collaborators of `CheckoutIndex`, one field per call site:
`File(file).IndexPath(c)`, `c.GetObject`, `f.Stat`, `ioutil.WriteFile`
failure injection, `ReadIndex` failure, and the final
`GitDir.Create("index")` / `idx.WriteIndex` failures. -/
structure CIEnv where
  indexPathOf : String → Except String String
  getObject : Nat → Except String GitBlobObject
  statOf : String → Except String (Nat × Nat)
  writeErr : String → Option String
  readIndexErr : Option String := none
  createIndexErr : Option String := none
  writeIndexErr : Option String := none

/-- State threaded through `CheckoutIndex`: the in-memory index
entries, the working tree, whether the persisted index file was
(re)written at the end, and the diagnostics printed to stderr. -/
structure CIState where
  entries : List IndexEntry
  disk : Disk
  indexWritten : Bool := false
  messages : List String := []
  deriving Repr, DecidableEq

/-- Append a stderr diagnostic unless `quiet` suppresses it. -/
def addMsgUnlessQuiet (st : CIState) (quiet : Bool) (msg : String) : CIState :=
  if quiet then st else { st with messages := st.messages ++ [msg] }

/-- One `(index entry, requested file)` iteration of the nested loops of
`CheckoutIndex` (checkoutindex.go:54-106), in source order:

1. resolve the file's index path, printing and skipping on failure;
2. skip entries whose `PathName` differs from the resolved path;
3. fetch the object for the entry's digest — before anything else;
4. if the target (`Prefix + file`) exists and `force` is unset, print a
   diagnostic and skip, the fetch result never being examined;
5. only now propagate a fetch error as a fatal error;
6. unless `no_create`, write the content (a `GetContent` size mismatch
   panics) and `Chmod` the unprefixed path, its error ignored;
7. if `update_stat` is set and the prefix empty, re-stat the target and
   update the entry's two mtime fields. -/
def ciStep (env : CIEnv) (opts : CheckoutIndexOptions) (st : CIState)
    (entry : IndexEntry) (file : String) : GoResult (CIState × IndexEntry) :=
  match env.indexPathOf file with
  | .error e => .ok (addMsgUnlessQuiet st opts.quiet e, entry)
  | .ok indexpath =>
    if entry.pathName ≠ indexpath then .ok (st, entry)
    else
      let f := opts.pfx ++ file
      let objRes := env.getObject entry.sha1
      if (diskLookup st.disk f).isSome && !opts.force then
        .ok (addMsgUnlessQuiet st opts.quiet
              (indexpath ++ " already exists, no checkout"), entry)
      else
        match objRes with
        | .error e => .goError e
        | .ok obj =>
          let writeRes : GoResult Disk :=
            if opts.noCreate then .ok st.disk
            else
              match obj.GetContent with
              | none => .panicked "Content of blob does not match size."
              | some content =>
                match env.writeErr f with
                | some e => .goError e
                | none =>
                  .ok (diskChmod (diskInsert st.disk f ⟨content, entry.mode⟩)
                        file entry.mode)
          match writeRes with
          | .goError e => .goError e
          | .panicked m => .panicked m
          | .ok disk1 =>
            if opts.updateStat && opts.pfx = "" then
              match env.statOf f with
              | .error e => .goError e
              | .ok mt =>
                .ok ({ st with disk := disk1 },
                     { entry with mtime := mt.1, mtimenano := mt.2 })
            else .ok ({ st with disk := disk1 }, entry)

/-- The inner `for _, file := range files` loop for one entry. -/
def ciFiles (env : CIEnv) (opts : CheckoutIndexOptions) :
    CIState → IndexEntry → List String → GoResult (CIState × IndexEntry)
  | st, entry, [] => .ok (st, entry)
  | st, entry, file :: rest =>
    match ciStep env opts st entry file with
    | .ok (st1, e1) => ciFiles env opts st1 e1 rest
    | .goError e => .goError e
    | .panicked m => .panicked m

/-- The outer `for _, entry := range idx.Objects` loop; the possibly
mtime-refreshed entry replaces the original (the Go entries are shared
pointers into the index that gets written back). -/
def ciEntries (env : CIEnv) (opts : CheckoutIndexOptions) (files : List String) :
    CIState → List IndexEntry → GoResult (CIState × List IndexEntry)
  | st, [] => .ok (st, [])
  | st, e :: rest =>
    match ciFiles env opts st e files with
    | .ok (st1, e1) =>
      match ciEntries env opts files st1 rest with
      | .ok (st2, es) => .ok (st2, e1 :: es)
      | .goError msg => .goError msg
      | .panicked m => .panicked m
    | .goError e => .goError e
    | .panicked m => .panicked m

/-- `CheckoutIndex` (checkoutindex.go:38-119): argument-conflict check,
index read, `--all` expansion, the nested checkout loops, and the final
persistence of the index exactly when `update_stat` was set (the index
file is created at its authoritative name and the entries serialized
into it). -/
def CheckoutIndex (env : CIEnv) (opts : CheckoutIndexOptions)
    (files0 : List String) (st : CIState) : GoResult CIState :=
  if files0.length ≠ 0 && opts.all then
    .goError "Can not mix --all and named files"
  else
    match env.readIndexErr with
    | some e => .goError e
    | none =>
      let files := if opts.all then files0 ++ st.entries.map (fun e => e.pathName)
                   else files0
      match ciEntries env opts files st st.entries with
      | .goError e => .goError e
      | .panicked m => .panicked m
      | .ok (st1, es) =>
        let st2 := { st1 with entries := es }
        if opts.updateStat then
          match env.createIndexErr with
          | some e => .goError e
          | none =>
            match env.writeIndexErr with
            | some e => .goError e
            | none => .ok { st2 with indexWritten := true }
        else .ok st2

/-! ## Persisting the index (`checkoutindex.go:109-117`,
`git/checkout.go:268-276`)

Both call sites persist with the same pattern:

    f, err := c.GitDir.Create(File("index"))
    ...
    defer f.Close()
    ... idx.WriteIndex(f) ...

The file created carries the authoritative name `index` and the entries
are serialized through the returned handle, which the deferred `Close`
closes unconditionally — there is no temporary file and no rename.  The
model tracks the content of the authoritative index file at entry
granularity: a serialization that fails after `k` entries leaves the
truncated file holding the first `k` entries of the new index. -/

/-- Failure injection for one save: whether `Create` itself fails, and
after how many serialized entries `WriteIndex` fails (`none` = no
failure). -/
structure SaveEnv where
  createErr : Bool := false
  failAfter : Option Nat := none
  deriving Repr, DecidableEq

/-- The index-save step.  `prev` is the current content of the
persisted index file (`none` when no index exists yet); the result
pairs the Go-level outcome with the content of the file afterwards. -/
def saveIndex (env : SaveEnv) (prev : Option (List IndexEntry))
    (entries : List IndexEntry) : Except String Unit × Option (List IndexEntry) :=
  if env.createErr then (.error "Create index failed", prev)
  else
    match env.failAfter with
    | some k =>
      if k < entries.length then (.error "WriteIndex failed", some (entries.take k))
      else (.ok (), some entries)
    | none => (.ok (), some entries)

/-! ## The working-tree status classifier (`src/checkoutindex.go`,
second unit: `LsFiles`) -/

/-- What `stat` reports for a path: nothing (the path cannot be
stat'd), a directory, or a regular file with its content. -/
inductive FsNode where
  | dir
  | file (content : List Nat)
  deriving Repr, DecidableEq

/-- Environment of the classifier: the file-system view behind
`Exists` / `IsDir` / `Stat`, and the content digest behind `HashFile`
("blob" hashing is a pure function of the content bytes). -/
structure LsEnv where
  fs : String → Option FsNode
  hashF : List Nat → Nat

/-- The mode flags of `LsFilesOptions` relevant to the per-entry
classification chain (checkoutindex.go, second unit, lines 418-464). -/
structure LsModes where
  cached : Bool := false
  deleted : Bool := false
  unmerged : Bool := false
  modified : Bool := false
  deriving Repr, DecidableEq

/-- Per-entry classification of `LsFiles` for an index entry, following
the source order with no explicit path arguments, `Killed` and `Others`
unset (their blocks are skipped):

* `cached`: emit `S` for skip-worktree entries, else `H`, and continue;
* `deleted`: emit `R` when the working-tree path does not exist;
* `unmerged`: emit `M` when the entry's stage is not 0;
* `modified`: emit `C` when the path is a directory, or cannot be
  stat'd, or the recomputed content digest differs from the recorded
  one (checkoutindex.go, second unit, lines 438-464); the entry's
  `mtime` fields are never consulted. -/
def lsEntry (opts : LsModes) (env : LsEnv) (entry : IndexEntry) :
    List (String × Char) :=
  if opts.cached then
    [(entry.pathName, if entry.skipWorktree then 'S' else 'H')]
  else if opts.deleted && (env.fs entry.pathName).isNone then
    [(entry.pathName, 'R')]
  else if opts.unmerged && entry.stage ≠ 0 then
    [(entry.pathName, 'M')]
  else if opts.modified then
    match env.fs entry.pathName with
    | some .dir => [(entry.pathName, 'C')]
    | none => [(entry.pathName, 'C')]
    | some (.file content) =>
      if env.hashF content ≠ entry.sha1 then [(entry.pathName, 'C')] else []
  else []

/-- `LsFiles` over a whole index in the same scope (no explicit paths,
`Killed`/`Others`/`ErrorUnmatch` unset); the final byte-wise sort of
checkoutindex.go (second unit, lines 532-566) reorders but never adds
or removes classifications, so it is omitted from the model. -/
def lsFilesEntries (opts : LsModes) (env : LsEnv) (entries : List IndexEntry) :
    List (String × Char) :=
  entries.flatMap (lsEntry opts env)

/-! ## Commit-level checkout (`src/git/checkout.go`, `CheckoutCommit`) -/

/-- One element of the `DiffIndex(Cached:true)` result consumed at
checkout.go:255-263: the path and the staged (destination) mode, digest
and size. -/
structure StagedDiff where
  name : String
  dstMode : Nat
  dstSha1 : Nat
  dstSize : Nat
  deriving Repr, DecidableEq

/-- Ordered insertion of an entry by byte-wise path order. -/
def insertOrdered : List IndexEntry → IndexEntry → List IndexEntry
  | [], e => [e]
  | x :: rest, e =>
    if e.pathName ≤ x.pathName then e :: x :: rest else x :: insertOrdered rest e

/-- Modelled from the spec: `Index.AddStage` (called at
checkout.go:259) is not among the given sources; per spec §4.2 `upsert`
"replaces an existing entry at the same `(path, stage)` key or inserts
while preserving the ordering invariant". -/
def addStage (entries : List IndexEntry) (d : StagedDiff) : List IndexEntry :=
  let newEntry : IndexEntry :=
    { pathName := d.name, sha1 := d.dstSha1, mode := d.dstMode,
      mtime := 0, mtimenano := 0, stage := 0, skipWorktree := false,
      fsize := d.dstSize }
  if entries.any (fun e => e.pathName = d.name && e.stage = 0) then
    entries.map (fun e =>
      if e.pathName = d.name && e.stage = 0 then newEntry else e)
  else insertOrdered entries newEntry

/-- Result of the per-entry loop over the new index: the working tree
after the skip-worktree removals, the possibly staged-amended new
index, and the paths marked for disk materialization. -/
structure CCLoopOut where
  disk : Disk
  idx : List IndexEntry
  checkoutfiles : List String
  deriving Repr, DecidableEq

/-- The `newfiles:` loop of `CheckoutCommit` (checkout.go:239-266) over
the snapshot of the tree-read index.  Per entry, in source order:

* a skip-worktree entry (marker honoured) has any existing on-disk
  file removed and is not checked out;
* otherwise, when the checkout is not forced, the loop over the staged
  diffs runs: its body unconditionally re-applies the FIRST staged diff
  through `AddStage` and `continue`s the outer loop, so whenever the
  staged diff list is non-empty no entry is appended to
  `checkoutfiles`; only with an empty staged diff list is the entry's
  path marked for materialization;
* a forced checkout appends nothing (`ReadTree` with `Update` handles
  the working tree instead).

`FilePath` is modelled as the repository-relative path itself. -/
def ccNewIndexLoop (force ignoreSkip : Bool) (staged : List StagedDiff) :
    Disk → List IndexEntry → List IndexEntry → List String → CCLoopOut
  | disk, idx, [], files => ⟨disk, idx, files⟩
  | disk, idx, obj :: rest, files =>
    if obj.skipWorktree && !ignoreSkip then
      let disk1 := if (diskLookup disk obj.pathName).isSome
                   then diskErase disk obj.pathName else disk
      ccNewIndexLoop force ignoreSkip staged disk1 idx rest files
    else if !force then
      match staged with
      | s :: _ => ccNewIndexLoop force ignoreSkip staged disk (addStage idx s) rest files
      | [] => ccNewIndexLoop force ignoreSkip staged disk idx rest (files ++ [obj.pathName])
    else
      ccNewIndexLoop force ignoreSkip staged disk idx rest files

/-- Modelled from the spec: `IndexPath.IsClean` (called at
checkout.go:282) is not among the given sources; per spec §4.6 step 10
it holds when "that path's current on-disk content still matches what
was recorded", i.e. the file exists and its content digest equals the
recorded one. -/
def isClean (hashF : List Nat → Nat) (disk : Disk) (p : String) (sha : Nat) : Bool :=
  match diskLookup disk p with
  | some fd => hashF fd.content = sha
  | none => false

/-- The delete-removed-files loop of `CheckoutCommit`
(checkout.go:278-292): every old-index path absent from the new index
is removed from disk, but only when `IsClean` holds for it. -/
def ccDeleteOld (hashF : List Nat → Nat) (newidx : List IndexEntry) :
    Disk → List IndexEntry → Disk
  | disk, [] => disk
  | disk, obj :: rest =>
    let disk1 :=
      if newidx.all (fun e => e.pathName ≠ obj.pathName) then
        if isClean hashF disk obj.pathName obj.sha1 then diskErase disk obj.pathName
        else disk
      else disk
    ccDeleteOld hashF newidx disk1 rest

/-- The untracked scan `findUntrackedFilesFromDir` (checkoutindex.go,
second unit, lines 178-278) as invoked by `LsFiles` with
`Others: true` only: recursion is enabled (`!opt.Directory`), no
ignore patterns exist (`LsFilesOptions{Others: true}` sets none of the
exclude sources and `ExcludePerDirectory` is empty), so the walk
enumerates every file under the working directory and emits those
whose repository-relative path is in the `filesInIndex` map of no
index entry.  Over the flat working-tree model — which holds exactly
the worktree's files, the metadata directory not among them — that is
the list of disk paths tracked by no entry, in traversal order. -/
def findUntrackedFiles (disk : Disk) (tracked : List String) : List String :=
  (disk.map (fun pr => pr.1)).filter (fun f => tracked.all (fun t => t ≠ f))

/-- Ordered insertion for the byte-wise path sort. -/
def insertPathSorted (f : String) : List String → List String
  | [] => [f]
  | g :: rest => if f ≤ g then f :: g :: rest else g :: insertPathSorted f rest

/-- The final `lsByPath` sort of `LsFiles` (checkoutindex.go, second
unit, lines 532-566): byte-wise ascending path order (every untracked
result carries stage 0, so the stage tiebreak never fires). -/
def sortByPath : List String → List String
  | [] => []
  | f :: rest => insertPathSorted f (sortByPath rest)

/-- `LsFiles` with `Others: true` and explicit file arguments, as
called at checkout.go:172 (checkoutindex.go, second unit, lines
331-533): no per-entry mode flag is set, so the entry loop only builds
the tracked-path map; the untracked scan runs over the working
directory; each candidate is kept only when some requested path equals
it or is an ancestor of it (`fAbs == eAbs || HasPrefix(fAbs,
eAbs+"/")`, lines 508-527 — candidates and requested paths are
repository-relative here, mirroring the common absolutization), with
no filter when no paths were requested; the result is sorted
byte-wise. -/
def lsFilesOthers (disk : Disk) (indexEntries : List IndexEntry)
    (files : List String) : List String :=
  sortByPath
    (if files.isEmpty then
      findUntrackedFiles disk (indexEntries.map (fun e => e.pathName))
    else
      (findUntrackedFiles disk (indexEntries.map (fun e => e.pathName))).filter
        (fun f => files.any (fun e => f = e || (e ++ "/").isPrefixOf f)))

/-- The error text built at checkout.go:176-182, naming every offending
untracked path on its own tab-indented line. -/
def wouldOverwriteMsg (paths : List String) : String :=
  "error: The following untracked working tree files would be overwritten by checkout:\n"
  ++ String.join (paths.map (fun p => "\t" ++ p ++ "\n"))
  ++ "Please move or remove them before you switch branches.\nAborting"

/-- The error text built at checkout.go:220-222 for locally modified
files. -/
def wouldOverwriteLocalMsg (paths : List String) : String :=
  "error: Your local changes to the following files would be overwritten by checkout.\n\t"
  ++ String.intercalate "\n\t" paths
  ++ "\nPlease commit your changes or discard them before switching branches."

/-- What HEAD resolved to at checkout.go:139-150. -/
inductive HeadV where
  | branch (name : String)
  | commit (cid : Nat)
  deriving Repr, DecidableEq

/-- Result of `SymbolicRefGet` for HEAD: a branch, the detached-HEAD
error, or another error. -/
inductive SymRefRes where
  | branch (name : String)
  | detached
  | failed (msg : String)
  deriving Repr, DecidableEq

/-- `CheckoutOptions` (checkout.go:13-53), restricted to the fields
`CheckoutCommit` reads. -/
structure CheckoutOptions where
  quiet : Bool := false
  force : Bool := false
  branch : String := ""
  forceBranch : Bool := false
  detach : Bool := false
  ignoreSkipWorktreeBits : Bool := false
  deriving Repr, DecidableEq

/-- Repository state seen by `CheckoutCommit`: the working tree, the
persisted index, and the ref storage (HEAD's target and the branch
pointers). -/
structure CCState where
  disk : Disk
  indexFile : List IndexEntry
  headTarget : String := ""
  branches : List (String × Nat) := []
  reflog : List String := []
  deriving Repr, DecidableEq

/-- Outcome of `CheckoutCommit`, carrying the repository state at the
point the function returned (an error is reported, not rolled back). -/
inductive CCResult where
  | ok (st : CCState)
  | err (msg : String) (st : CCState)
  | panicked (msg : String) (st : CCState)
  deriving Repr, DecidableEq

/-- External collaborators of `CheckoutCommit`, one field per call
site, in source order. -/
structure CCEnv where
  branchRefExists : Bool := false
  symRefHead : SymRefRes
  headCommit : Except String Nat := .ok 0
  cidOf : Except String Nat
  lsTreePaths : Except String (List String)
  headCid : Except String Nat := .ok 0
  stagedDiffs : Except String (List StagedDiff)
  modifiedPaths : Except String (List String) := .ok []
  ccReadIndexErr : Option String := none
  readTreeIdx : Except String (List IndexEntry)
  indexWriteErr : Option String := none
  hashF : List Nat → Nat
  ciEnv : CIEnv
  createBranchErr : Option String := none
  symRefUpdateErr : Option String := none
  updateRefErr : Option String := none
  commitBranch : Option String := none

/-- Resolution of HEAD (checkout.go:139-150): a symbolic ref gives the
branch; the detached-HEAD error falls back to the commit HEAD points
at; any other error is fatal. -/
def resolveHead (env : CCEnv) : Except String HeadV :=
  match env.symRefHead with
  | .branch n => .ok (HeadV.branch n)
  | .detached =>
    match env.headCommit with
    | .error e => .error e
    | .ok c => .ok (HeadV.commit c)
  | .failed m => .error m

/-- The previous position's display name for the reflog
(checkout.go:298-308). -/
def origBName (head : HeadV) : String :=
  match head with
  | .branch n => n
  | .commit c => toString c

/-- The reflog message format of checkout.go:314/320/323. -/
def checkoutRefMsg (old new : String) : String :=
  "checkout: moving from " ++ old ++ " to " ++ new ++ " (dgit)"

/-- Steps 5-15 of `CheckoutCommit` (checkout.go:186-328): everything
after the untracked-overwrite safety check — the staged diff, the
local-modifications check, the `newfiles:` loop, index persistence,
old-file deletion, the final `CheckoutIndex`, and the ref updates. -/
def CheckoutCommitRest (env : CCEnv) (opts : CheckoutOptions) (st : CCState)
    (head : HeadV) (cid : Nat) : CCResult :=
  match env.headCid with
            | .error e => .err e st
            | .ok _ =>
              match env.stagedDiffs with
              | .error e => .err e st
              | .ok staged =>
                match (if opts.force then Except.ok ([] : List String)
                       else env.modifiedPaths) with
                | .error e => .err e st
                | .ok modified =>
                  if 0 < modified.length then
                    .err (wouldOverwriteLocalMsg modified) st
                  else
                    match env.ccReadIndexErr with
                    | some e => .err e st
                    | none =>
                      let origidx := st.indexFile
                      match env.readTreeIdx with
                      | .error e => .err e st
                      | .ok idx0 =>
                        let out := ccNewIndexLoop opts.force
                          opts.ignoreSkipWorktreeBits staged st.disk idx0 idx0 []
                        let st1 := { st with disk := out.disk }
                        match env.indexWriteErr with
                        | some e => .err e st1
                        | none =>
                          let st2 := { st1 with indexFile := out.idx }
                          let st3 := { st2 with
                            disk := ccDeleteOld env.hashF out.idx st2.disk origidx }
                          match CheckoutIndex env.ciEnv
                            { force := true, updateStat := true }
                            out.checkoutfiles
                            { entries := st3.indexFile, disk := st3.disk } with
                          | .goError e => .err e st3
                          | .panicked m => .panicked m st3
                          | .ok cist =>
                            let st4 : CCState :=
                              { st3 with disk := cist.disk, indexFile := cist.entries }
                            let origB := origBName head
                            if opts.branch ≠ "" then
                              match env.createBranchErr with
                              | some e => .err e st4
                              | none =>
                                let st5 := { st4 with
                                  branches := (opts.branch, cid) :: st4.branches }
                                match env.symRefUpdateErr with
                                | some e => .err e st5
                                | none =>
                                  .ok { st5 with
                                    headTarget := "refs/heads/" ++ opts.branch,
                                    reflog := st5.reflog ++
                                      [checkoutRefMsg origB opts.branch] }
                            else
                              match env.commitBranch with
                              | some bname =>
                                if !opts.detach then
                                  match env.symRefUpdateErr with
                                  | some e => .err e st4
                                  | none =>
                                    .ok { st4 with
                                      headTarget := bname,
                                      reflog := st4.reflog ++
                                        [checkoutRefMsg origB bname] }
                                else
                                  match env.updateRefErr with
                                  | some e => .err e st4
                                  | none =>
                                    .ok { st4 with
                                      headTarget := toString cid,
                                      reflog := st4.reflog ++
                                        [checkoutRefMsg origB (toString cid)] }
                              | none =>
                                match env.updateRefErr with
                                | some e => .err e st4
                                | none =>
                                  .ok { st4 with
                                    headTarget := toString cid,
                                    reflog := st4.reflog ++
                                      [checkoutRefMsg origB (toString cid)] }

/-- `CheckoutCommit` (checkout.go:125-328), with each collaborator
taken from the environment, sequenced exactly as in the source:

1. branch-existence check for `-b`;
2. HEAD resolution;
3. `commit.CommitID`;
4. (unless forced) target-tree expansion and the untracked-overwrite
   safety check — before any mutation;
5. everything after (`CheckoutCommitRest`): staged diff, the
   local-modifications check, the `newfiles:` loop, index persistence,
   old-file deletion, path-scoped checkout, ref updates. -/
def CheckoutCommit (env : CCEnv) (opts : CheckoutOptions) (st : CCState) : CCResult :=
  if opts.branch ≠ "" && env.branchRefExists && !opts.forceBranch then
    .err ("Branch " ++ opts.branch ++ " already exists.") st
  else
    match resolveHead env with
    | .error e => .err e st
    | .ok head =>
      match env.cidOf with
      | .error e => .err e st
      | .ok cid =>
        match (if opts.force then Except.ok ([] : List String)
               else
                 match env.lsTreePaths with
                 | .error e => .error e
                 | .ok tpaths => .ok (lsFilesOthers st.disk st.indexFile tpaths)) with
        | .error e => .err e st
        | .ok untracked =>
          if 0 < untracked.length then .err (wouldOverwriteMsg untracked) st
          else CheckoutCommitRest env opts st head cid

/-! ## Helper lemmas: decimal size fields -/

/-- Big-endian ASCII decimal encoding of a natural number — the form of
the size field of a stored object header. -/
def asciiDecimal (n : Nat) : List Nat :=
  if n = 0 then [48] else ((Nat.digits 10 n).map (fun d => d + 48)).reverse

theorem asciiDecimal_mem (n : Nat) (b : Nat) (hb : b ∈ asciiDecimal n) :
    48 ≤ b ∧ b ≤ 57 := by
  unfold asciiDecimal at hb
  split at hb
  · simp only [List.mem_singleton] at hb
    omega
  · simp only [List.mem_reverse, List.mem_map] at hb
    obtain ⟨d, hd, rfl⟩ := hb
    have hlt : d < 10 := Nat.digits_lt_base (by norm_num) hd
    omega

theorem asciiDecimal_ne_nil (n : Nat) : asciiDecimal n ≠ [] := by
  unfold asciiDecimal
  split
  · simp
  · simp [Nat.digits_ne_nil_iff_ne_zero, *]

theorem asciiDecimal_all_digits (n : Nat) :
    (asciiDecimal n).all isDigitNat = true := by
  rw [List.all_eq_true]
  intro b hb
  have := asciiDecimal_mem n b hb
  simp only [isDigitNat, Bool.and_eq_true, decide_eq_true_eq]
  omega

theorem asciiDecimal_not_zero (n : Nat) : (0 : Nat) ∉ asciiDecimal n := by
  intro h
  have := asciiDecimal_mem n 0 h
  omega

theorem digitsToNat_append (l : List Nat) (b : Nat) :
    digitsToNat (l ++ [b]) = digitsToNat l * 10 + (b - 48) := by
  simp [digitsToNat, List.foldl_append]

theorem digitsToNat_eq_ofDigits (l : List Nat) :
    digitsToNat ((l.map (fun d => d + 48)).reverse) = Nat.ofDigits 10 l := by
  induction l with
  | nil => simp [digitsToNat, Nat.ofDigits]
  | cons d rest ih =>
    have h : ((d :: rest).map (fun x => x + 48)).reverse
        = ((rest.map (fun x => x + 48)).reverse) ++ [d + 48] := by simp
    rw [h, digitsToNat_append, ih, Nat.ofDigits_cons]
    omega

theorem digitsToNat_asciiDecimal (n : Nat) : digitsToNat (asciiDecimal n) = n := by
  unfold asciiDecimal
  split
  · simp [digitsToNat, *]
  · rw [digitsToNat_eq_ofDigits, Nat.ofDigits_digits]

theorem atoiOrZero_asciiDecimal (n : Nat) : atoiOrZero (asciiDecimal n) = n := by
  unfold atoiOrZero
  rw [if_pos, digitsToNat_asciiDecimal]
  simp [asciiDecimal_ne_nil, asciiDecimal_all_digits]

theorem firstZeroIdx_append (l rest : List Nat) (hl : (0 : Nat) ∉ l) :
    firstZeroIdx (l ++ 0 :: rest) = some l.length := by
  induction l with
  | nil => simp [firstZeroIdx]
  | cons b bs ih =>
    have hb : b ≠ 0 := fun h => hl (by simp [h])
    simp [firstZeroIdx, hb, ih (fun h => hl (List.mem_cons_of_mem _ h))]

/-! ## Claim C2 — object-size integrity on retrieval -/

/-- C2, counterexample: the stored stream `"blob 5\x00abc"` declares
size 5 but carries only 3 content bytes, yet `GetObject` returns the
object successfully — it does not fail with a corruption error, contrary
to the claim that any declared/actual length mismatch makes `get`
fail. -/
theorem getObject_size_mismatch_cx :
    GetObject false false true (some [98, 108, 111, 98, 32, 53, 0, 97, 98, 99]) =
      .ok { size := 5, content := [97, 98, 99] } ∧
    [97, 98, 99].length ≠ 5 ∧
    (GitBlobObject.mk 5 [97, 98, 99]).GetContent = none := by decide

/-- Unfolding of `GetObject` on an opened, unpacked, decompressed
stream (the outer condition tests and the option match reduce). -/
theorem getObject_some (b : List Nat) :
    GetObject false false true (some b) =
      (if b.length < 5 then .panicked "runtime error: slice bounds out of range"
       else if b.take 5 = blobTag then
         match firstZeroIdx b with
         | none => .ok ⟨0, []⟩
         | some idx =>
           .ok ⟨atoiOrZero ((b.drop 5).take (idx - 5)), b.drop (idx + 1)⟩
       else .goError "Invalid object") := rfl

/-- C2 (amended): `GetObject` performs no size validation — for every
declared size field, matching or not, it returns the parsed object
without error; the mismatch is caught only by `GetContent`, which
panics rather than returning content, so content of the wrong length is
never handed to a caller, but no `CorruptObject`-style error result
exists. -/
theorem getObject_skips_size_validation (size : Nat) (content : List Nat) :
    GetObject false false true
        (some (blobTag ++ asciiDecimal size ++ 0 :: content)) =
      .ok ⟨size, content⟩ ∧
    (content.length ≠ size → (GitBlobObject.mk size content).GetContent = none) ∧
    (content.length = size →
      (GitBlobObject.mk size content).GetContent = some content) := by
  refine ⟨?_, ?_, ?_⟩
  · have hA : (0 : Nat) ∉ blobTag ++ asciiDecimal size := by
      intro h
      rcases List.mem_append.mp h with h | h
      · simp [blobTag] at h
      · exact asciiDecimal_not_zero size h
    have hfz : firstZeroIdx (blobTag ++ asciiDecimal size ++ 0 :: content)
        = some (5 + (asciiDecimal size).length) := by
      rw [firstZeroIdx_append _ _ hA]
      congr 1
      simp only [List.length_append, blobTag, List.length_cons, List.length_nil]
    have hlen : ¬ (blobTag ++ asciiDecimal size ++ 0 :: content).length < 5 := by
      simp only [List.length_append, blobTag, List.length_cons, List.length_nil]
      omega
    have hassoc : blobTag ++ asciiDecimal size ++ 0 :: content
        = blobTag ++ (asciiDecimal size ++ 0 :: content) := List.append_assoc _ _ _
    have htake : (blobTag ++ asciiDecimal size ++ 0 :: content).take 5 = blobTag := by
      rw [hassoc, show (5 : Nat) = blobTag.length from rfl]
      exact List.take_left _ _
    have hdrop5 : (blobTag ++ asciiDecimal size ++ 0 :: content).drop 5
        = asciiDecimal size ++ 0 :: content := by
      rw [hassoc, show (5 : Nat) = blobTag.length from rfl]
      exact List.drop_left _ _
    have hzlen : (blobTag ++ asciiDecimal size ++ [0]).length
        = 5 + (asciiDecimal size).length + 1 := by
      simp only [List.length_append, blobTag, List.length_cons, List.length_nil]
    have hdropAll : (blobTag ++ asciiDecimal size ++ 0 :: content).drop
        (5 + (asciiDecimal size).length + 1) = content := by
      have h2 : blobTag ++ asciiDecimal size ++ 0 :: content
          = (blobTag ++ asciiDecimal size ++ [0]) ++ content := by simp
      rw [h2, ← hzlen, List.drop_left]
    have hmain : GetObject false false true
        (some (blobTag ++ asciiDecimal size ++ 0 :: content))
        = .ok ⟨atoiOrZero
            (((blobTag ++ asciiDecimal size ++ 0 :: content).drop 5).take
              (5 + (asciiDecimal size).length - 5)),
            (blobTag ++ asciiDecimal size ++ 0 :: content).drop
              (5 + (asciiDecimal size).length + 1)⟩ := by
      rw [getObject_some, if_neg hlen, if_pos htake, hfz]
    rw [hmain, hdrop5, hdropAll,
      show 5 + (asciiDecimal size).length - 5 = (asciiDecimal size).length by omega,
      List.take_left, atoiOrZero_asciiDecimal]
  · intro h
    simp [GitBlobObject.GetContent, h]
  · intro h
    simp [GitBlobObject.GetContent, h]

/-- C2 amended witness at size 5 with 3 content bytes. -/
theorem getObject_skips_size_validation_witness :
    (GitBlobObject.mk 5 [97, 98, 99]).GetContent = none :=
  (getObject_skips_size_validation 5 [97, 98, 99]).2.1 (by decide)

/-! ## Claim C5 — retrieval error surface -/

/-- C5, counterexample: a digest with no matching on-disk object path
(the object file cannot be opened) makes `GetObject` panic — the
process terminates instead of an explicit `ObjectNotFound` error
result being returned. -/
theorem getObject_missing_panics_cx :
    GetObject false false false none = .panicked "Couldn't open object file." := by
  decide

/-- C5 (amended): a digest known only via a packed representation does
fail with the distinct, explicit packed-objects error; but a digest
with no matching on-disk path — and likewise a `HaveObject` failure —
terminates the process by panicking instead of returning an
`ObjectNotFound`-style error. -/
theorem getObject_error_surface (haveErr fileExists : Bool) (z : Option (List Nat)) :
    GetObject true haveErr fileExists z =
      .goError "GetObject does not yet support packed objects" ∧
    GetObject false true fileExists z = .panicked "HaveObject failed" ∧
    GetObject false false false z = .panicked "Couldn't open object file." :=
  ⟨rfl, rfl, rfl⟩

/-! ## Claim C4 — ignore-pattern evaluation -/

/-- C4, counterexample: with the pattern list `["*.log", "!keep.log"]`,
the scanner's evaluation loop treats `keep.log` as ignored (the first
matching pattern `*.log` ends the walk and its verdict is always
"ignored"), contradicting the claimed last-match-wins verdict under
which `keep.log` would not be ignored. -/
theorem scanIgnores_negation_cx :
    scanIgnores [{ pattern := "*.log" }, { pattern := "!keep.log" }]
      "keep.log" false = true ∧
    scanIgnores [{ pattern := "*.log" }, { pattern := "!keep.log" }]
      "debug.log" false = true := by decide

/-- C4 (amended): ignore evaluation returns "ignored" exactly when SOME
pattern of the list matches the candidate — the walk stops at the first
match and every match's verdict is "ignored", so a later negation
pattern can never re-include a path; in particular, under
`["*.log", "!keep.log"]` both `keep.log` and `debug.log` are
ignored. -/
theorem scanIgnores_first_match_any (ps : List IgnorePattern) (name : String)
    (isDir : Bool) :
    scanIgnores ps name isDir = ps.any (fun p => p.matchesPath name isDir) ∧
    scanIgnores [{ pattern := "*.log" }, { pattern := "!keep.log" }]
      "keep.log" false = true := by
  constructor
  · induction ps with
    | nil => rfl
    | cons p rest ih =>
      by_cases h : p.matchesPath name isDir <;> simp [scanIgnores, h, ih]
  · decide

/-! ## Claim C1 — staged-change re-application during commit checkout -/

/-- C1: evaluation of the `newfiles:` loop at the failing input.  The
new (target-tree) index holds entries `a` and `b`; the staged-vs-HEAD
diff records exactly one staged change, for path `a`.  The code
re-applies that diff for EVERY entry (its per-diff loop never compares
the diff's path with the entry's and `continue`s the outer loop on its
first iteration), and marks NO path for disk materialization — in
particular `b`, which has no staged change, is never checked out,
whereas with an empty staged diff both paths are marked. -/
theorem ccNewIndexLoop_staged_misapplied :
    (ccNewIndexLoop false false
        [{ name := "a", dstMode := 420, dstSha1 := 9, dstSize := 4 }] []
        [{ pathName := "a", sha1 := 1, mode := 420, mtime := 0, mtimenano := 0 },
         { pathName := "b", sha1 := 2, mode := 420, mtime := 0, mtimenano := 0 }]
        [{ pathName := "a", sha1 := 1, mode := 420, mtime := 0, mtimenano := 0 },
         { pathName := "b", sha1 := 2, mode := 420, mtime := 0, mtimenano := 0 }]
        []).checkoutfiles = [] ∧
    (ccNewIndexLoop false false
        [{ name := "a", dstMode := 420, dstSha1 := 9, dstSize := 4 }] []
        [{ pathName := "a", sha1 := 1, mode := 420, mtime := 0, mtimenano := 0 },
         { pathName := "b", sha1 := 2, mode := 420, mtime := 0, mtimenano := 0 }]
        [{ pathName := "a", sha1 := 1, mode := 420, mtime := 0, mtimenano := 0 },
         { pathName := "b", sha1 := 2, mode := 420, mtime := 0, mtimenano := 0 }]
        []).idx =
      [{ pathName := "a", sha1 := 9, mode := 420, mtime := 0, mtimenano := 0,
         fsize := 4 },
       { pathName := "b", sha1 := 2, mode := 420, mtime := 0, mtimenano := 0 }] ∧
    (ccNewIndexLoop false false [] []
        [{ pathName := "a", sha1 := 1, mode := 420, mtime := 0, mtimenano := 0 },
         { pathName := "b", sha1 := 2, mode := 420, mtime := 0, mtimenano := 0 }]
        [{ pathName := "a", sha1 := 1, mode := 420, mtime := 0, mtimenano := 0 },
         { pathName := "b", sha1 := 2, mode := 420, mtime := 0, mtimenano := 0 }]
        []).checkoutfiles = ["a", "b"] := by decide

/-! ## Claim C3 — atomicity of index persistence -/

/-- C3, counterexample: the previous index holds entry `old`; a save of
`[x, y]` that fails after serializing one entry leaves the
authoritative index file holding the partial content `[x]` — the
previously-committed content is destroyed, not left untouched. -/
theorem saveIndex_not_atomic_cx :
    (saveIndex { failAfter := some 1 }
        (some [{ pathName := "old", sha1 := 1, mode := 420, mtime := 0,
                 mtimenano := 0 }])
        [{ pathName := "x", sha1 := 2, mode := 420, mtime := 0, mtimenano := 0 },
         { pathName := "y", sha1 := 3, mode := 420, mtime := 0, mtimenano := 0 }]).2
      = some [{ pathName := "x", sha1 := 2, mode := 420, mtime := 0,
                mtimenano := 0 }] ∧
    (saveIndex { failAfter := some 1 }
        (some [{ pathName := "old", sha1 := 1, mode := 420, mtime := 0,
                 mtimenano := 0 }])
        [{ pathName := "x", sha1 := 2, mode := 420, mtime := 0, mtimenano := 0 },
         { pathName := "y", sha1 := 3, mode := 420, mtime := 0, mtimenano := 0 }]).2
      ≠ some [{ pathName := "old", sha1 := 1, mode := 420, mtime := 0,
                mtimenano := 0 }] ∧
    (saveIndex { failAfter := some 1 }
        (some [{ pathName := "old", sha1 := 1, mode := 420, mtime := 0,
                 mtimenano := 0 }])
        [{ pathName := "x", sha1 := 2, mode := 420, mtime := 0, mtimenano := 0 },
         { pathName := "y", sha1 := 3, mode := 420, mtime := 0, mtimenano := 0 }]).1
      = .error "WriteIndex failed" := ⟨rfl, by decide, rfl⟩

/-- C3 (amended): index persistence is not write-new-then-replace — the
entries are serialized directly into the authoritative index file,
created (truncated) at its final name; a serialization that fails after
`k` entries leaves the index file holding exactly the first `k` entries
of the new index, so the previously-committed content does not
survive. -/
theorem saveIndex_partial_prefix (env : SaveEnv) (prev : Option (List IndexEntry))
    (entries : List IndexEntry) (k : Nat)
    (hc : env.createErr = false) (hf : env.failAfter = some k)
    (hk : k < entries.length) :
    saveIndex env prev entries = (.error "WriteIndex failed", some (entries.take k)) := by
  simp [saveIndex, hc, hf, hk]

/-- C3 amended witness: a concrete two-entry save failing after one
entry. -/
theorem saveIndex_partial_prefix_witness :
    saveIndex { failAfter := some 1 } none
        [{ pathName := "x", sha1 := 2, mode := 420, mtime := 0, mtimenano := 0 },
         { pathName := "y", sha1 := 3, mode := 420, mtime := 0, mtimenano := 0 }]
      = (.error "WriteIndex failed",
         some [{ pathName := "x", sha1 := 2, mode := 420, mtime := 0,
                 mtimenano := 0 }]) :=
  saveIndex_partial_prefix { failAfter := some 1 } none _ 1 rfl rfl (by decide)

/-! ## Claim C7 — deletion of removed paths is guarded by content -/

theorem diskLookup_diskErase (d : Disk) (p q : String) :
    diskLookup (diskErase d q) p = if p = q then none else diskLookup d p := by
  induction d with
  | nil => simp [diskErase, diskLookup]
  | cons hd tl ih =>
    obtain ⟨r, fd⟩ := hd
    by_cases hrq : r = q <;> by_cases hpq : p = q <;> by_cases hrp : r = p <;>
      simp_all [diskErase, diskLookup]

/-- C7: during commit-level checkout, the delete-removed-files step
leaves a path alone whenever its current on-disk content does not hash
to the digest recorded for it in the old index snapshot — a file
modified outside version control is never deleted by this step, whether
or not its path is absent from the new index. -/
theorem ccDeleteOld_spares_modified (hashF : List Nat → Nat)
    (newidx origidx : List IndexEntry) (disk : Disk) (p : String) (fd : DiskFile)
    (hlook : diskLookup disk p = some fd)
    (hdirty : ∀ e ∈ origidx, e.pathName = p → hashF fd.content ≠ e.sha1) :
    diskLookup (ccDeleteOld hashF newidx disk origidx) p = some fd := by
  induction origidx generalizing disk with
  | nil => simpa [ccDeleteOld] using hlook
  | cons obj rest ih =>
    simp only [ccDeleteOld]
    have hlook1 : diskLookup
        (if newidx.all (fun e => e.pathName ≠ obj.pathName) = true then
          if isClean hashF disk obj.pathName obj.sha1 = true then
            diskErase disk obj.pathName
          else disk
        else disk) p = some fd := by
      by_cases hop : obj.pathName = p
      · have hcl : isClean hashF disk obj.pathName obj.sha1 = false := by
          rw [hop]
          simp [isClean, hlook, hdirty obj (List.mem_cons_self _ _) hop]
        rw [hcl]
        split <;> simp [hlook]
      · split
        · split
          · rw [diskLookup_diskErase, if_neg (fun h => hop h.symm)]
            exact hlook
          · exact hlook
        · exact hlook
    exact ih _ hlook1 (fun e he hp => hdirty e (List.mem_cons_of_mem _ he) hp)

/-- C7 witness: a path recorded with digest 5 in the old index and
absent from the (empty) new index, whose on-disk content hashes to 2,
survives the deletion step untouched. -/
theorem ccDeleteOld_spares_modified_witness :
    diskLookup
      (ccDeleteOld (fun l => l.length) []
        [("a", { content := [1, 2], fmode := 420 })]
        [{ pathName := "a", sha1 := 5, mode := 420, mtime := 0, mtimenano := 0 }])
      "a" = some { content := [1, 2], fmode := 420 } :=
  ccDeleteOld_spares_modified (fun l => l.length) [] _ _ "a"
    { content := [1, 2], fmode := 420 } rfl (by decide)

/-! ## Claim C8 — `modified` classification is digest-based -/

/-- C8: for an index entry examined in `modified` mode whose path can
be stat'd and is a regular file (not a directory), the classifier emits
`C` exactly when the recomputed content digest differs from the
recorded one, emits nothing exactly when they agree, and never consults
the entry's mtime fields — so content edited and then restored to its
original bytes is reported unmodified regardless of any timestamp
change. -/
theorem lsFiles_modified_digest_only (env : LsEnv) (entry : IndexEntry)
    (content : List Nat)
    (hfs : env.fs entry.pathName = some (.file content)) :
    (lsEntry { modified := true } env entry = [(entry.pathName, 'C')] ↔
       env.hashF content ≠ entry.sha1) ∧
    (lsEntry { modified := true } env entry = [] ↔
       env.hashF content = entry.sha1) ∧
    (∀ mt mtn, lsEntry { modified := true } env
        { entry with mtime := mt, mtimenano := mtn }
      = lsEntry { modified := true } env entry) := by
  refine ⟨?_, ?_, fun mt mtn => rfl⟩ <;>
    by_cases h : env.hashF content = entry.sha1 <;>
      simp [lsEntry, hfs, h]

/-- C8 witness: content `[1,2]` hashing (via list length) to the
recorded digest 2 is classified unmodified; with recorded digest 5 the
classifier emits `C`. -/
theorem lsFiles_modified_digest_only_witness :
    lsEntry { modified := true }
      { fs := fun _ => some (.file [1, 2]), hashF := fun l => l.length }
      { pathName := "f", sha1 := 2, mode := 420, mtime := 7, mtimenano := 9 }
      = [] :=
  (lsFiles_modified_digest_only
      { fs := fun _ => some (.file [1, 2]), hashF := fun l => l.length }
      { pathName := "f", sha1 := 2, mode := 420, mtime := 7, mtimenano := 9 }
      [1, 2] rfl).2.1.mpr rfl

/-! ## Claims C9 and C10 — frame and error-order properties of
path-scoped checkout -/

/-- Two index entries agreeing on every field except possibly the two
modification-time hints. -/
def mtimeOnly (a b : IndexEntry) : Bool :=
  a.pathName == b.pathName && a.sha1 == b.sha1 && a.mode == b.mode &&
    a.stage == b.stage && a.skipWorktree == b.skipWorktree && a.fsize == b.fsize

/-- Pointwise `mtimeOnly` over two entry lists of equal length. -/
def frameOK : List IndexEntry → List IndexEntry → Bool
  | [], [] => true
  | a :: l1, b :: l2 => mtimeOnly a b && frameOK l1 l2
  | _, _ => false

theorem mtimeOnly_refl (a : IndexEntry) : mtimeOnly a a = true := by
  simp [mtimeOnly]

theorem mtimeOnly_update (a : IndexEntry) (mt mtn : Nat) :
    mtimeOnly a { a with mtime := mt, mtimenano := mtn } = true := by
  simp [mtimeOnly]

theorem addMsgUnlessQuiet_fields (st : CIState) (q : Bool) (m : String) :
    (addMsgUnlessQuiet st q m).entries = st.entries ∧
    (addMsgUnlessQuiet st q m).indexWritten = st.indexWritten := by
  unfold addMsgUnlessQuiet
  split <;> simp

/-- Per-iteration shape of `ciStep`: a successful iteration never
touches the entries list or the persistence flag of the state, and the
returned entry differs from the input entry at most in the two mtime
fields — and not even there unless `update_stat` is set with an empty
prefix. -/
theorem ciStep_ok_shape (env : CIEnv) (opts : CheckoutIndexOptions) (st : CIState)
    (entry : IndexEntry) (file : String) (st1 : CIState) (e1 : IndexEntry)
    (h : ciStep env opts st entry file = .ok (st1, e1)) :
    mtimeOnly entry e1 = true ∧ st1.entries = st.entries ∧
      st1.indexWritten = st.indexWritten ∧
      (¬(opts.updateStat = true ∧ opts.pfx = "") → e1 = entry) := by
  have hrest : ∀ (D : Disk),
      (if opts.updateStat && opts.pfx = "" then
         match env.statOf (opts.pfx ++ file) with
         | Except.error e => GoResult.goError e
         | Except.ok mt => GoResult.ok ({ st with disk := D },
             { entry with mtime := mt.1, mtimenano := mt.2 })
       else GoResult.ok ({ st with disk := D }, entry)) = GoResult.ok (st1, e1) →
      mtimeOnly entry e1 = true ∧ st1.entries = st.entries ∧
        st1.indexWritten = st.indexWritten ∧
        (¬(opts.updateStat = true ∧ opts.pfx = "") → e1 = entry) := by
    intro D hD
    by_cases hup : (opts.updateStat && decide (opts.pfx = "")) = true
    · rw [if_pos hup] at hD
      cases hstat : env.statOf (opts.pfx ++ file) with
      | error e => rw [hstat] at hD; exact GoResult.noConfusion hD
      | ok mt =>
        rw [hstat] at hD
        have h2 := GoResult.ok.inj hD
        cases h2
        refine ⟨mtimeOnly_update _ _ _, rfl, rfl, fun hcond => absurd
          ⟨(Bool.and_eq_true _ _ |>.mp hup).1,
           of_decide_eq_true (Bool.and_eq_true _ _ |>.mp hup).2⟩ hcond⟩
    · rw [if_neg hup] at hD
      have h2 := GoResult.ok.inj hD
      cases h2
      exact ⟨mtimeOnly_refl _, rfl, rfl, fun _ => rfl⟩
  unfold ciStep at h
  cases hip : env.indexPathOf file with
  | error e =>
    rw [hip] at h
    have h2 := GoResult.ok.inj h
    cases h2
    exact ⟨mtimeOnly_refl _, (addMsgUnlessQuiet_fields _ _ _).1,
      (addMsgUnlessQuiet_fields _ _ _).2, fun _ => rfl⟩
  | ok indexpath =>
    rw [hip] at h
    replace h : (if entry.pathName ≠ indexpath then GoResult.ok (st, entry)
        else if (diskLookup st.disk (opts.pfx ++ file)).isSome && !opts.force then
          GoResult.ok (addMsgUnlessQuiet st opts.quiet
            (indexpath ++ " already exists, no checkout"), entry)
        else
          match env.getObject entry.sha1 with
          | Except.error e => GoResult.goError e
          | Except.ok obj =>
            match (if opts.noCreate then GoResult.ok st.disk
              else match obj.GetContent with
                | none => GoResult.panicked "Content of blob does not match size."
                | some content =>
                  match env.writeErr (opts.pfx ++ file) with
                  | some e => GoResult.goError e
                  | none => GoResult.ok (diskChmod (diskInsert st.disk
                      (opts.pfx ++ file) ⟨content, entry.mode⟩) file entry.mode)) with
            | GoResult.goError e => GoResult.goError e
            | GoResult.panicked m => GoResult.panicked m
            | GoResult.ok disk1 =>
              if opts.updateStat && opts.pfx = "" then
                match env.statOf (opts.pfx ++ file) with
                | Except.error e => GoResult.goError e
                | Except.ok mt => GoResult.ok ({ st with disk := disk1 },
                    { entry with mtime := mt.1, mtimenano := mt.2 })
              else GoResult.ok ({ st with disk := disk1 }, entry))
        = GoResult.ok (st1, e1) := h
    by_cases hne : entry.pathName ≠ indexpath
    · rw [if_pos hne] at h
      have h2 := GoResult.ok.inj h
      cases h2
      exact ⟨mtimeOnly_refl _, rfl, rfl, fun _ => rfl⟩
    · rw [if_neg hne] at h
      by_cases hskip : ((diskLookup st.disk (opts.pfx ++ file)).isSome
          && !opts.force) = true
      · rw [if_pos hskip] at h
        have h2 := GoResult.ok.inj h
        cases h2
        exact ⟨mtimeOnly_refl _, (addMsgUnlessQuiet_fields _ _ _).1,
          (addMsgUnlessQuiet_fields _ _ _).2, fun _ => rfl⟩
      · rw [if_neg hskip] at h
        cases hobj : env.getObject entry.sha1 with
        | error e => rw [hobj] at h; exact GoResult.noConfusion h
        | ok obj =>
          rw [hobj] at h
          replace h : (match (if opts.noCreate then GoResult.ok st.disk
              else match obj.GetContent with
                | none => GoResult.panicked "Content of blob does not match size."
                | some content =>
                  match env.writeErr (opts.pfx ++ file) with
                  | some e => GoResult.goError e
                  | none => GoResult.ok (diskChmod (diskInsert st.disk
                      (opts.pfx ++ file) ⟨content, entry.mode⟩) file entry.mode)) with
            | GoResult.goError e => GoResult.goError e
            | GoResult.panicked m => GoResult.panicked m
            | GoResult.ok disk1 =>
              if opts.updateStat && opts.pfx = "" then
                match env.statOf (opts.pfx ++ file) with
                | Except.error e => GoResult.goError e
                | Except.ok mt => GoResult.ok ({ st with disk := disk1 },
                    { entry with mtime := mt.1, mtimenano := mt.2 })
              else GoResult.ok ({ st with disk := disk1 }, entry))
            = GoResult.ok (st1, e1) := h
          by_cases hnc : opts.noCreate = true
          · rw [if_pos hnc] at h
            exact hrest st.disk h
          · rw [if_neg hnc] at h
            cases hgc : obj.GetContent with
            | none => rw [hgc] at h; exact GoResult.noConfusion h
            | some content =>
              rw [hgc] at h
              cases hwe : env.writeErr (opts.pfx ++ file) with
              | some e => rw [hwe] at h; exact GoResult.noConfusion h
              | none =>
                rw [hwe] at h
                exact hrest _ h

theorem mtimeOnly_trans (a b c : IndexEntry) (h1 : mtimeOnly a b = true)
    (h2 : mtimeOnly b c = true) : mtimeOnly a c = true := by
  simp only [mtimeOnly, Bool.and_eq_true, beq_iff_eq] at h1 h2 ⊢
  obtain ⟨⟨⟨⟨⟨a1, a2⟩, a3⟩, a4⟩, a5⟩, a6⟩ := h1
  obtain ⟨⟨⟨⟨⟨b1, b2⟩, b3⟩, b4⟩, b5⟩, b6⟩ := h2
  exact ⟨⟨⟨⟨⟨a1.trans b1, a2.trans b2⟩, a3.trans b3⟩, a4.trans b4⟩,
    a5.trans b5⟩, a6.trans b6⟩

/-- Lifting of `ciStep_ok_shape` through the inner file loop. -/
theorem ciFiles_ok_shape (env : CIEnv) (opts : CheckoutIndexOptions) :
    ∀ (files : List String) (st : CIState) (entry : IndexEntry)
      (st1 : CIState) (e1 : IndexEntry),
      ciFiles env opts st entry files = .ok (st1, e1) →
      mtimeOnly entry e1 = true ∧ st1.entries = st.entries ∧
        st1.indexWritten = st.indexWritten ∧
        (¬(opts.updateStat = true ∧ opts.pfx = "") → e1 = entry)
  | [], st, entry, st1, e1, h => by
    have h2 := GoResult.ok.inj h
    cases h2
    exact ⟨mtimeOnly_refl _, rfl, rfl, fun _ => rfl⟩
  | file :: rest, st, entry, st1, e1, h => by
    unfold ciFiles at h
    cases hstep : ciStep env opts st entry file with
    | goError e => rw [hstep] at h; exact GoResult.noConfusion h
    | panicked m => rw [hstep] at h; exact GoResult.noConfusion h
    | ok p =>
      obtain ⟨s1, en1⟩ := p
      rw [hstep] at h
      have hrec := ciFiles_ok_shape env opts rest s1 en1 st1 e1 h
      have hstp := ciStep_ok_shape env opts st entry file s1 en1 hstep
      exact ⟨mtimeOnly_trans _ _ _ hstp.1 hrec.1,
        hrec.2.1.trans hstp.2.1, hrec.2.2.1.trans hstp.2.2.1,
        fun hc => (hrec.2.2.2 hc).trans (hstp.2.2.2 hc)⟩

/-- Lifting through the outer entry loop: the output entry list is a
pointwise mtime-only variant of the processed list, and the state's
persistence flag survives untouched. -/
theorem ciEntries_ok_shape (env : CIEnv) (opts : CheckoutIndexOptions)
    (files : List String) :
    ∀ (l : List IndexEntry) (st : CIState) (st1 : CIState) (es : List IndexEntry),
      ciEntries env opts files st l = .ok (st1, es) →
      frameOK l es = true ∧ st1.indexWritten = st.indexWritten ∧
        (¬(opts.updateStat = true ∧ opts.pfx = "") → es = l)
  | [], st, st1, es, h => by
    have h2 := GoResult.ok.inj h
    cases h2
    exact ⟨rfl, rfl, fun _ => rfl⟩
  | e :: rest, st, st1, es, h => by
    unfold ciEntries at h
    cases hf : ciFiles env opts st e files with
    | goError m => rw [hf] at h; exact GoResult.noConfusion h
    | panicked m => rw [hf] at h; exact GoResult.noConfusion h
    | ok p =>
      obtain ⟨s1, e1⟩ := p
      rw [hf] at h
      replace h : (match ciEntries env opts files s1 rest with
          | GoResult.ok (st2, es2) => GoResult.ok (st2, e1 :: es2)
          | GoResult.goError msg => GoResult.goError msg
          | GoResult.panicked m => GoResult.panicked m) = GoResult.ok (st1, es) := h
      cases hrec : ciEntries env opts files s1 rest with
      | goError m => rw [hrec] at h; exact GoResult.noConfusion h
      | panicked m => rw [hrec] at h; exact GoResult.noConfusion h
      | ok q =>
        obtain ⟨st2, es2⟩ := q
        rw [hrec] at h
        have hME := ciFiles_ok_shape env opts files st e s1 e1 hf
        have hRE := ciEntries_ok_shape env opts files rest s1 st2 es2 hrec
        have h2 := GoResult.ok.inj h
        cases h2
        refine ⟨?_, ?_, ?_⟩
        · simp [frameOK, hME.1, hRE.1]
        · exact hRE.2.1.trans hME.2.2.1
        · intro hc
          rw [hME.2.2.2 hc, hRE.2.2 hc]

/-- C9: in path-scoped checkout, a successful run (a) changes index
entries at most in their two modification-time fields, (b) changes no
entry at all unless `update_stat` is set with an empty prefix, (c)
persists the index file exactly when `update_stat` was set, and (d) —
the positive direction — an entry that matches a requested file, is not
skipped, and is written, has its in-memory mtime fields set from the
re-stat of the just-written file, and the working tree gains the
written file (content and mode from the entry) with the Chmod applied
to the unprefixed path. -/
theorem checkoutIndex_stat_frame (env : CIEnv) (opts : CheckoutIndexOptions)
    (files : List String) (st st1 : CIState)
    (hiw : st.indexWritten = false)
    (h : CheckoutIndex env opts files st = .ok st1) :
    frameOK st.entries st1.entries = true ∧
    (¬(opts.updateStat = true ∧ opts.pfx = "") → st1.entries = st.entries) ∧
    st1.indexWritten = opts.updateStat ∧
    (∀ (st0 : CIState) (entry : IndexEntry) (file : String) (content : List Nat)
        (mt mtn : Nat),
      opts.updateStat = true → opts.pfx = "" →
      env.indexPathOf file = .ok entry.pathName →
      env.getObject entry.sha1 = .ok ⟨content.length, content⟩ →
      (diskLookup st0.disk (opts.pfx ++ file)).isSome = false →
      opts.noCreate = false →
      env.writeErr (opts.pfx ++ file) = none →
      env.statOf (opts.pfx ++ file) = .ok (mt, mtn) →
      ciStep env opts st0 entry file =
        .ok ({ st0 with disk :=
                diskChmod (diskInsert st0.disk (opts.pfx ++ file)
                  ⟨content, entry.mode⟩) file entry.mode },
             { entry with mtime := mt, mtimenano := mtn })) := by
  have hmain : frameOK st.entries st1.entries = true ∧
      (¬(opts.updateStat = true ∧ opts.pfx = "") → st1.entries = st.entries) ∧
      st1.indexWritten = opts.updateStat := by
    unfold CheckoutIndex at h
    by_cases hc : (decide (files.length ≠ 0) && opts.all) = true
    · rw [if_pos hc] at h
      exact GoResult.noConfusion h
    · rw [if_neg hc] at h
      cases hri : env.readIndexErr with
      | some e => rw [hri] at h; exact GoResult.noConfusion h
      | none =>
        rw [hri] at h
        replace h : (match ciEntries env opts
            (if opts.all then files ++ st.entries.map (fun e => e.pathName)
             else files) st st.entries with
          | GoResult.goError e => GoResult.goError e
          | GoResult.panicked m => GoResult.panicked m
          | GoResult.ok (s1, es) =>
            if opts.updateStat then
              match env.createIndexErr with
              | some e => GoResult.goError e
              | none =>
                match env.writeIndexErr with
                | some e => GoResult.goError e
                | none => GoResult.ok
                    { { s1 with entries := es } with indexWritten := true }
            else GoResult.ok { s1 with entries := es })
          = GoResult.ok st1 := h
        cases hce : ciEntries env opts
            (if opts.all then files ++ st.entries.map (fun e => e.pathName)
             else files) st st.entries with
        | goError e => rw [hce] at h; exact GoResult.noConfusion h
        | panicked m => rw [hce] at h; exact GoResult.noConfusion h
        | ok p =>
          obtain ⟨s1, es⟩ := p
          rw [hce] at h
          replace h : (if opts.updateStat then
              match env.createIndexErr with
              | some e => GoResult.goError e
              | none =>
                match env.writeIndexErr with
                | some e => GoResult.goError e
                | none => GoResult.ok
                    { { s1 with entries := es } with indexWritten := true }
            else GoResult.ok { s1 with entries := es }) = GoResult.ok st1 := h
          have hE := ciEntries_ok_shape env opts _ st.entries st s1 es hce
          by_cases hup : opts.updateStat = true
          · rw [if_pos hup] at h
            cases hc1 : env.createIndexErr with
            | some e => rw [hc1] at h; exact GoResult.noConfusion h
            | none =>
              rw [hc1] at h
              cases hw1 : env.writeIndexErr with
              | some e => rw [hw1] at h; exact GoResult.noConfusion h
              | none =>
                rw [hw1] at h
                have h2 := GoResult.ok.inj h
                cases h2
                refine ⟨hE.1, fun hcd => hE.2.2 hcd, ?_⟩
                rw [hup]
          · rw [if_neg hup] at h
            have h2 := GoResult.ok.inj h
            cases h2
            refine ⟨hE.1, fun hcd => hE.2.2 hcd, ?_⟩
            show s1.indexWritten = opts.updateStat
            rw [hE.2.1, hiw]
            exact (Bool.eq_false_iff.mpr hup).symm
  refine ⟨hmain.1, hmain.2.1, hmain.2.2, ?_⟩
  intro st0 entry file0 content mt mtn hup hpfx hip hobj hdl hnc hwe hstat
  unfold ciStep
  rw [hip]
  show (if entry.pathName ≠ entry.pathName then GoResult.ok (st0, entry)
        else if (diskLookup st0.disk (opts.pfx ++ file0)).isSome && !opts.force then
          GoResult.ok (addMsgUnlessQuiet st0 opts.quiet
            (entry.pathName ++ " already exists, no checkout"), entry)
        else
          match env.getObject entry.sha1 with
          | Except.error e => GoResult.goError e
          | Except.ok obj =>
            match (if opts.noCreate then GoResult.ok st0.disk
              else match obj.GetContent with
                | none => GoResult.panicked "Content of blob does not match size."
                | some content2 =>
                  match env.writeErr (opts.pfx ++ file0) with
                  | some e => GoResult.goError e
                  | none => GoResult.ok (diskChmod (diskInsert st0.disk
                      (opts.pfx ++ file0) ⟨content2, entry.mode⟩) file0 entry.mode)) with
            | GoResult.goError e => GoResult.goError e
            | GoResult.panicked m => GoResult.panicked m
            | GoResult.ok disk1 =>
              if opts.updateStat && opts.pfx = "" then
                match env.statOf (opts.pfx ++ file0) with
                | Except.error e => GoResult.goError e
                | Except.ok mt => GoResult.ok ({ st0 with disk := disk1 },
                    { entry with mtime := mt.1, mtimenano := mt.2 })
              else GoResult.ok ({ st0 with disk := disk1 }, entry)) = _
  rw [if_neg (show ¬(entry.pathName ≠ entry.pathName) from fun hh => hh rfl)]
  rw [if_neg (show ¬(((diskLookup st0.disk (opts.pfx ++ file0)).isSome
      && !opts.force) = true) by simp [hdl])]
  rw [hobj]
  show (match (if opts.noCreate then GoResult.ok st0.disk
      else match (GitBlobObject.mk content.length content).GetContent with
        | none => GoResult.panicked "Content of blob does not match size."
        | some content2 =>
          match env.writeErr (opts.pfx ++ file0) with
          | some e => GoResult.goError e
          | none => GoResult.ok (diskChmod (diskInsert st0.disk
              (opts.pfx ++ file0) ⟨content2, entry.mode⟩) file0 entry.mode)) with
    | GoResult.goError e => GoResult.goError e
    | GoResult.panicked m => GoResult.panicked m
    | GoResult.ok disk1 =>
      if opts.updateStat && opts.pfx = "" then
        match env.statOf (opts.pfx ++ file0) with
        | Except.error e => GoResult.goError e
        | Except.ok mt2 => GoResult.ok ({ st0 with disk := disk1 },
            { entry with mtime := mt2.1, mtimenano := mt2.2 })
      else GoResult.ok ({ st0 with disk := disk1 }, entry)) = _
  rw [if_neg (show ¬(opts.noCreate = true) by simp [hnc])]
  rw [show (GitBlobObject.mk content.length content).GetContent = some content by
    simp [GitBlobObject.GetContent]]
  rw [hwe]
  show (if opts.updateStat && opts.pfx = "" then
      match env.statOf (opts.pfx ++ file0) with
      | Except.error e => GoResult.goError e
      | Except.ok mt2 => GoResult.ok ({ st0 with disk := diskChmod (diskInsert st0.disk (opts.pfx ++ file0) ⟨content, entry.mode⟩) file0 entry.mode }, { entry with mtime := mt2.1, mtimenano := mt2.2 })
    else GoResult.ok ({ st0 with disk := diskChmod (diskInsert st0.disk (opts.pfx ++ file0) ⟨content, entry.mode⟩) file0 entry.mode }, entry)) = _
  rw [if_pos (show (opts.updateStat && decide (opts.pfx = "")) = true by
    simp [hup, hpfx])]
  rw [hstat]

/-- C10: in path-scoped checkout the object-store fetch happens before
the existing-target check and its error is examined only for entries
that are not skipped — (a) an entry whose target exists while `force`
is unset is skipped with a diagnostic and its fetch failure is silently
discarded, (b) an entry that proceeds past the skip turns the fetch
failure into a fatal error, and (c) that fatal error aborts the whole
`CheckoutIndex` operation. -/
theorem checkoutIndex_fetch_error_order (env : CIEnv)
    (opts : CheckoutIndexOptions) (st : CIState) (entry : IndexEntry)
    (file : String) (emsg : String)
    (hip : env.indexPathOf file = .ok entry.pathName)
    (hobj : env.getObject entry.sha1 = .error emsg) :
    ((diskLookup st.disk (opts.pfx ++ file)).isSome = true → opts.force = false →
      ciStep env opts st entry file =
        .ok (addMsgUnlessQuiet st opts.quiet
              (entry.pathName ++ " already exists, no checkout"), entry)) ∧
    (((diskLookup st.disk (opts.pfx ++ file)).isSome && !opts.force) = false →
      ciStep env opts st entry file = .goError emsg) ∧
    (opts.all = false → env.readIndexErr = none →
      ((diskLookup st.disk (opts.pfx ++ file)).isSome && !opts.force) = false →
      st.entries = [entry] →
      CheckoutIndex env opts [file] st = .goError emsg) := by
  have hstep : ((diskLookup st.disk (opts.pfx ++ file)).isSome
      && !opts.force) = false →
      ciStep env opts st entry file = .goError emsg := by
    intro hskipF
    unfold ciStep
    rw [hip]
    show (if entry.pathName ≠ entry.pathName then GoResult.ok (st, entry)
        else if (diskLookup st.disk (opts.pfx ++ file)).isSome && !opts.force then
          GoResult.ok (addMsgUnlessQuiet st opts.quiet
            (entry.pathName ++ " already exists, no checkout"), entry)
        else
          match env.getObject entry.sha1 with
          | Except.error e => GoResult.goError e
          | Except.ok obj =>
            match (if opts.noCreate then GoResult.ok st.disk
              else match obj.GetContent with
                | none => GoResult.panicked "Content of blob does not match size."
                | some content2 =>
                  match env.writeErr (opts.pfx ++ file) with
                  | some e => GoResult.goError e
                  | none => GoResult.ok (diskChmod (diskInsert st.disk
                      (opts.pfx ++ file) ⟨content2, entry.mode⟩) file entry.mode)) with
            | GoResult.goError e => GoResult.goError e
            | GoResult.panicked m => GoResult.panicked m
            | GoResult.ok disk1 =>
              if opts.updateStat && opts.pfx = "" then
                match env.statOf (opts.pfx ++ file) with
                | Except.error e => GoResult.goError e
                | Except.ok mt => GoResult.ok ({ st with disk := disk1 },
                    { entry with mtime := mt.1, mtimenano := mt.2 })
              else GoResult.ok ({ st with disk := disk1 }, entry)) = _
    rw [if_neg (show ¬(entry.pathName ≠ entry.pathName) from fun hh => hh rfl)]
    rw [if_neg (show ¬(((diskLookup st.disk (opts.pfx ++ file)).isSome
        && !opts.force) = true) by simp [hskipF])]
    rw [hobj]
  refine ⟨?_, hstep, ?_⟩
  · intro hd hf
    unfold ciStep
    rw [hip]
    show (if entry.pathName ≠ entry.pathName then GoResult.ok (st, entry)
        else if (diskLookup st.disk (opts.pfx ++ file)).isSome && !opts.force then
          GoResult.ok (addMsgUnlessQuiet st opts.quiet
            (entry.pathName ++ " already exists, no checkout"), entry)
        else
          match env.getObject entry.sha1 with
          | Except.error e => GoResult.goError e
          | Except.ok obj =>
            match (if opts.noCreate then GoResult.ok st.disk
              else match obj.GetContent with
                | none => GoResult.panicked "Content of blob does not match size."
                | some content2 =>
                  match env.writeErr (opts.pfx ++ file) with
                  | some e => GoResult.goError e
                  | none => GoResult.ok (diskChmod (diskInsert st.disk
                      (opts.pfx ++ file) ⟨content2, entry.mode⟩) file entry.mode)) with
            | GoResult.goError e => GoResult.goError e
            | GoResult.panicked m => GoResult.panicked m
            | GoResult.ok disk1 =>
              if opts.updateStat && opts.pfx = "" then
                match env.statOf (opts.pfx ++ file) with
                | Except.error e => GoResult.goError e
                | Except.ok mt => GoResult.ok ({ st with disk := disk1 },
                    { entry with mtime := mt.1, mtimenano := mt.2 })
              else GoResult.ok ({ st with disk := disk1 }, entry)) = _
    rw [if_neg (show ¬(entry.pathName ≠ entry.pathName) from fun hh => hh rfl)]
    rw [if_pos (show (((diskLookup st.disk (opts.pfx ++ file)).isSome
        && !opts.force) = true) by simp [hd, hf])]
  · intro hall hri hskipF hent
    have hcf : ciFiles env opts st entry [file] = .goError emsg := by
      unfold ciFiles
      rw [hstep hskipF]
    have hce : ciEntries env opts [file] st [entry] = .goError emsg := by
      unfold ciEntries
      rw [hcf]
    unfold CheckoutIndex
    rw [if_neg (show ¬((decide (([file] : List String).length ≠ 0)
        && opts.all) = true) by simp [hall])]
    rw [hri]
    show (match ciEntries env opts
        (if opts.all then [file] ++ st.entries.map (fun e => e.pathName)
         else [file]) st st.entries with
      | GoResult.goError e => GoResult.goError e
      | GoResult.panicked m => GoResult.panicked m
      | GoResult.ok (s1, es) =>
        if opts.updateStat then
          match env.createIndexErr with
          | some e => GoResult.goError e
          | none =>
            match env.writeIndexErr with
            | some e => GoResult.goError e
            | none => GoResult.ok
                { { s1 with entries := es } with indexWritten := true }
        else GoResult.ok { s1 with entries := es }) = GoResult.goError emsg
    rw [if_neg (show ¬(opts.all = true) by simp [hall]), hent, hce]

/-- Concrete collaborators for the C9 witness. -/
def ciEnvW9 : CIEnv :=
  { indexPathOf := fun z => .ok z, getObject := fun _ => .ok ⟨1, [7]⟩,
    statOf := fun _ => .ok (11, 13), writeErr := fun _ => none }

/-- Initial state for the C9 witness: one entry, empty working tree. -/
def stW9 : CIState :=
  { entries := [{ pathName := "a", sha1 := 1, mode := 420, mtime := 0,
                  mtimenano := 0 }],
    disk := [] }

/-- Final state of the C9 witness run. -/
def stW9out : CIState :=
  { entries := [{ pathName := "a", sha1 := 1, mode := 420, mtime := 11,
                  mtimenano := 13 }],
    disk := [("a", { content := [7], fmode := 420 })], indexWritten := true }

/-- C9 witness: a one-entry checkout with `update_stat` set and no
prefix refreshes only the entry's mtime fields (to the re-stat result
11/13), persists the index, and writes the fetched content to disk. -/
theorem checkoutIndex_stat_frame_witness :
    frameOK stW9.entries stW9out.entries = true ∧
    stW9out.indexWritten = true ∧
    ciStep ciEnvW9 { updateStat := true } stW9
      { pathName := "a", sha1 := 1, mode := 420, mtime := 0, mtimenano := 0 }
      "a" =
      .ok ({ entries := [{ pathName := "a", sha1 := 1, mode := 420, mtime := 0,
                           mtimenano := 0 }],
             disk := [("a", { content := [7], fmode := 420 })],
             indexWritten := false, messages := [] },
           { pathName := "a", sha1 := 1, mode := 420, mtime := 11,
             mtimenano := 13 }) := by
  have H := checkoutIndex_stat_frame ciEnvW9 { updateStat := true } ["a"]
    stW9 stW9out rfl rfl
  refine ⟨H.1, H.2.2.1, ?_⟩
  exact H.2.2.2 stW9
    { pathName := "a", sha1 := 1, mode := 420, mtime := 0, mtimenano := 0 }
    "a" [7] 11 13 rfl rfl rfl rfl rfl rfl rfl rfl

/-- Concrete collaborators for the C10 witness: every object fetch
fails. -/
def ciEnvW10 : CIEnv :=
  { indexPathOf := fun z => .ok z, getObject := fun _ => .error "boom",
    statOf := fun _ => .ok (11, 13), writeErr := fun _ => none }

/-- The index entry of the C10 witness. -/
def eW10 : IndexEntry :=
  { pathName := "a", sha1 := 1, mode := 420, mtime := 0, mtimenano := 0 }

/-- C10 witness: with a failing object fetch, the entry whose target
already exists (no force) is skipped with only a diagnostic, while the
same entry over an empty working tree aborts the whole CheckoutIndex
with the fetch error. -/
theorem checkoutIndex_fetch_error_order_witness :
    ciStep ciEnvW10 {}
      { entries := [eW10], disk := [("a", { content := [9], fmode := 420 })] }
      eW10 "a" =
      .ok ({ entries := [eW10],
             disk := [("a", { content := [9], fmode := 420 })],
             indexWritten := false,
             messages := ["a already exists, no checkout"] }, eW10) ∧
    CheckoutIndex ciEnvW10 {} ["a"] { entries := [eW10], disk := [] } =
      .goError "boom" := by
  constructor
  · exact (checkoutIndex_fetch_error_order ciEnvW10 {}
      { entries := [eW10], disk := [("a", { content := [9], fmode := 420 })] }
      eW10 "a" "boom" rfl rfl).1 rfl rfl
  · exact (checkoutIndex_fetch_error_order ciEnvW10 {}
      { entries := [eW10], disk := [] } eW10 "a" "boom" rfl rfl).2.2
      rfl rfl rfl rfl

/-! ## Claim C6 — untracked-overwrite safety check -/

theorem diskLookup_mem_keys (d : Disk) (p : String) (fd : DiskFile)
    (h : diskLookup d p = some fd) : p ∈ d.map (fun pr => pr.1) := by
  induction d with
  | nil => exact absurd h (by simp [diskLookup])
  | cons hd tl ih =>
    obtain ⟨q, g⟩ := hd
    by_cases hq : q = p
    · rw [List.map_cons, hq]
      exact List.mem_cons_self _ _
    · simp only [diskLookup, if_neg hq] at h
      rw [List.map_cons]
      exact List.mem_cons_of_mem _ (ih h)

theorem mem_insertPathSorted (a f : String) (l : List String) :
    a ∈ insertPathSorted f l ↔ a = f ∨ a ∈ l := by
  induction l with
  | nil => simp [insertPathSorted]
  | cons g rest ih =>
    by_cases hfg : f ≤ g
    · simp [insertPathSorted, hfg]
    · simp only [insertPathSorted, if_neg hfg, List.mem_cons, ih]
      tauto

theorem mem_sortByPath (a : String) (l : List String) :
    a ∈ sortByPath l ↔ a ∈ l := by
  induction l with
  | nil => simp [sortByPath]
  | cons f rest ih => simp [sortByPath, mem_insertPathSorted, ih]

/-- A requested path that exists on disk and is tracked by no entry
appears in the `LsFiles(Others, files)` result: it survives the scan,
matches itself in the equal-or-descendant filter, and the sort only
reorders. -/
theorem mem_lsFilesOthers (disk : Disk) (ies : List IndexEntry)
    (tpaths : List String) (p : String) (hp : p ∈ tpaths)
    (hdisk : (diskLookup disk p).isSome = true)
    (htracked : ies.all (fun e => e.pathName ≠ p) = true) :
    p ∈ lsFilesOthers disk ies tpaths := by
  obtain ⟨fd, hfd⟩ := Option.isSome_iff_exists.mp hdisk
  have hmem : p ∈ disk.map (fun pr => pr.1) := diskLookup_mem_keys disk p fd hfd
  have htr : (ies.map (fun e => e.pathName)).all (fun t => t ≠ p) = true := by
    rw [List.all_eq_true] at htracked ⊢
    intro t ht
    obtain ⟨e, he, rfl⟩ := List.mem_map.mp ht
    exact htracked e he
  have hscan : p ∈ findUntrackedFiles disk (ies.map (fun e => e.pathName)) := by
    unfold findUntrackedFiles
    exact List.mem_filter.mpr ⟨hmem, htr⟩
  have hne : tpaths.isEmpty = false := by
    cases tpaths with
    | nil => exact absurd hp (by simp)
    | cons t ts => rfl
  unfold lsFilesOthers
  rw [mem_sortByPath, if_neg (by simp [hne])]
  refine List.mem_filter.mpr ⟨hscan, ?_⟩
  exact List.any_eq_true.mpr ⟨p, hp, by simp⟩

/-- C6: a commit-level checkout without `force` whose target tree
contains a path that exists on disk but is tracked by no index entry
fails with the untracked-overwrite error, whose message lists every
path of the `LsFiles(Others)` result — the offending path among them —
and returns with the repository state completely untouched: the check
runs before any mutation of the working tree, the index file, or the
refs. -/
theorem checkoutCommit_untracked_guard (env : CCEnv) (opts : CheckoutOptions)
    (st : CCState) (hv : HeadV) (cid : Nat) (tpaths : List String) (p : String)
    (hforce : opts.force = false)
    (hb : (decide (opts.branch ≠ "") && env.branchRefExists
        && !opts.forceBranch) = false)
    (hhead : resolveHead env = .ok hv)
    (hcid : env.cidOf = .ok cid)
    (hls : env.lsTreePaths = .ok tpaths)
    (hp : p ∈ tpaths)
    (hdisk : (diskLookup st.disk p).isSome = true)
    (htracked : st.indexFile.all (fun e => e.pathName ≠ p) = true) :
    p ∈ lsFilesOthers st.disk st.indexFile tpaths ∧
    0 < (lsFilesOthers st.disk st.indexFile tpaths).length ∧
    CheckoutCommit env opts st =
      .err (wouldOverwriteMsg (lsFilesOthers st.disk st.indexFile tpaths)) st := by
  have hpmem : p ∈ lsFilesOthers st.disk st.indexFile tpaths :=
    mem_lsFilesOthers st.disk st.indexFile tpaths p hp hdisk htracked
  have hlen : 0 < (lsFilesOthers st.disk st.indexFile tpaths).length :=
    List.length_pos.mpr (List.ne_nil_of_mem hpmem)
  refine ⟨hpmem, hlen, ?_⟩
  unfold CheckoutCommit
  rw [if_neg (show ¬((decide (opts.branch ≠ "") && env.branchRefExists
      && !opts.forceBranch) = true) by
    intro hx
    rw [hx] at hb
    exact absurd hb (by decide))]
  rw [hhead, hcid]
  rw [if_neg (show ¬(opts.force = true) by simp [hforce])]
  rw [hls]
  show (if 0 < (lsFilesOthers st.disk st.indexFile tpaths).length then
      CCResult.err (wouldOverwriteMsg (lsFilesOthers st.disk st.indexFile tpaths)) st
    else CheckoutCommitRest env opts st hv cid) = _
  rw [if_pos hlen]

/-- Collaborators for the C6 witness. -/
def ciEnvW6 : CIEnv :=
  { indexPathOf := fun z => .ok z, getObject := fun _ => .error "x",
    statOf := fun _ => .ok (0, 0), writeErr := fun _ => none }

/-- Environment of the C6 witness: the target tree holds exactly
`notes.txt`. -/
def ccEnvW6 : CCEnv :=
  { symRefHead := .branch "master",
    cidOf := .ok 42,
    lsTreePaths := .ok ["notes.txt"],
    stagedDiffs := .ok [],
    readTreeIdx := .ok [],
    hashF := fun l => l.length,
    ciEnv := ciEnvW6 }

/-- State of the C6 witness: `notes.txt` exists on disk, untracked. -/
def stW6 : CCState :=
  { disk := [("notes.txt", { content := [1], fmode := 420 })], indexFile := [] }

/-- C6 witness: the scenario of spec §8 end-to-end scenario 3 — the
checkout fails naming `notes.txt` and the state is returned
unchanged. -/
theorem checkoutCommit_untracked_guard_witness :
    CheckoutCommit ccEnvW6 {} stW6 =
      .err (wouldOverwriteMsg ["notes.txt"]) stW6 :=
  (checkoutCommit_untracked_guard ccEnvW6 {} stW6 (.branch "master") 42
    ["notes.txt"] "notes.txt" rfl rfl rfl rfl rfl (by decide) rfl rfl).2.2

end Dgit
